import Mathlib

/-!
Verification of the backtesting system (models.py, execution_engine.py,
executionn_engine.py, reporting.py) against its natural-language
specification.  All Python floats are embedded as rationals (exact
arithmetic), machine ints as `Int`, dictionaries either as total
functions with the zero default (matching `fetch_current_position`) or
as insertion-ordered association lists where iteration order matters.
-/

/-! ## models.py : MarketDataContainer position ledger -/

/-- One per-symbol position record, the dict
`{"total_shares": .., "total_cost": .., "average_price": ..}` of models.py. -/
structure PyPosition where
  total_shares : Int
  total_cost : ℚ
  average_price : ℚ
deriving Repr, DecidableEq

/-- The zero position used to initialise a fresh symbol. -/
def zeroPyPosition : PyPosition := ⟨0, 0, 0⟩

/-- An order as consumed by `MarketDataContainer.update_position`
(a dict with symbol/side/quantity/price). -/
structure POrder where
  symbol : String
  side : String
  quantity : Int
  price : ℚ
deriving Repr, DecidableEq

/-- `str.upper()` on the side string (ASCII, as in the Python source). -/
def pyUpper (s : String) : String := ⟨s.data.map Char.toUpper⟩

/-- `MarketDataContainer.calculate_average_price`: sets
`average_price = total_cost / total_shares` when `total_shares > 0`,
else `0.0`. -/
def calculate_average_price (p : PyPosition) : PyPosition :=
  if p.total_shares > 0 then
    { p with average_price := p.total_cost / (p.total_shares : ℚ) }
  else
    { p with average_price := 0 }

/-- The body of `MarketDataContainer.update_position` acting on the single
position record of the order's symbol (the only record the method touches). -/
def update_pos (p : PyPosition) (side : String) (quantity : Int) (price : ℚ) :
    PyPosition :=
  if pyUpper side = "BUY" then
    calculate_average_price
      { p with total_shares := p.total_shares + quantity,
               total_cost := p.total_cost + price * quantity }
  else if pyUpper side = "SELL" then
    let sell_quantity := min quantity p.total_shares
    let p1 : PyPosition :=
      { p with total_shares := p.total_shares - sell_quantity,
               total_cost := p.total_cost - p.average_price * sell_quantity }
    let p2 : PyPosition :=
      if p1.total_shares ≤ 0 then { p1 with total_cost := 0, average_price := 0 }
      else p1
    calculate_average_price p2
  else p

/-- The `all_positions` dict, modelled as a total function with the zero
default (matching `fetch_current_position`, which defaults absent symbols
to the zero position). -/
def update_position (l : String → PyPosition) (o : POrder) :
    String → PyPosition :=
  fun s =>
    if s = o.symbol then update_pos (l o.symbol) o.side o.quantity o.price
    else l s

/-- Fresh container: every symbol at the zero position. -/
def emptyLedger : String → PyPosition := fun _ => zeroPyPosition

@[simp] theorem pyUpper_BUY : pyUpper "BUY" = "BUY" := rfl

@[simp] theorem pyUpper_SELL : pyUpper "SELL" = "SELL" := rfl

theorem pyUpper_buy : pyUpper "buy" = "BUY" := rfl

theorem BUY_ne_SELL : ("BUY" : String) ≠ "SELL" := by decide

-- quick sanity checks of the embedding (compile-time evidence the
-- definitions evaluate as the source does)
example :
    (update_pos ⟨10, 50, 5⟩ "SELL" 4 7) = ⟨6, 30, 5⟩ := by
  norm_num [update_pos, calculate_average_price]
  decide
example :
    (update_pos ⟨10, 50, 5⟩ "SELL" 12 7) = ⟨0, 0, 0⟩ := by
  norm_num [update_pos, calculate_average_price]
  decide
example :
    (update_pos zeroPyPosition "BUY" 4 3) = ⟨4, 12, 3⟩ := by
  norm_num [update_pos, calculate_average_price, zeroPyPosition]

/-! ## Ledger lemmas -/

theorem calculate_shares (p : PyPosition) :
    (calculate_average_price p).total_shares = p.total_shares := by
  unfold calculate_average_price; split <;> rfl

theorem calculate_cost (p : PyPosition) :
    (calculate_average_price p).total_cost = p.total_cost := by
  unfold calculate_average_price; split <;> rfl

theorem calculate_avg (p : PyPosition) :
    (calculate_average_price p).average_price =
      if 0 < p.total_shares then p.total_cost / (p.total_shares : ℚ) else 0 := by
  unfold calculate_average_price; split <;> simp_all

/-- `update_position` evaluated at the order's own symbol. -/
theorem update_position_same (l : String → PyPosition) (o : POrder) :
    (update_position l o) o.symbol =
      update_pos (l o.symbol) o.side o.quantity o.price := by
  unfold update_position; simp

/-- `update_position` leaves every other symbol untouched. -/
theorem update_position_other (l : String → PyPosition) (o : POrder)
    (t : String) (ht : t ≠ o.symbol) : (update_position l o) t = l t := by
  unfold update_position; simp [ht]

/-- The BUY branch of `update_position` on a single position record. -/
theorem update_pos_BUY (p : PyPosition) (q : Int) (pr : ℚ) :
    update_pos p "BUY" q pr =
      calculate_average_price
        ⟨p.total_shares + q, p.total_cost + pr * q, p.average_price⟩ := by
  unfold update_pos
  rw [pyUpper_BUY, if_pos rfl]

/-- The SELL branch never raises, subtracts exactly the clipped quantity,
and zeroes the average price whenever the shares reach zero. -/
theorem update_pos_sell_clip (p : PyPosition) (q : Int) (pr : ℚ) :
    (update_pos p "SELL" q pr).total_shares
        = p.total_shares - min q p.total_shares
    ∧ ((update_pos p "SELL" q pr).total_shares = 0 →
        (update_pos p "SELL" q pr).average_price = 0) := by
  unfold update_pos
  rw [pyUpper_SELL, if_neg (by decide), if_pos rfl]
  dsimp only
  by_cases h : p.total_shares - min q p.total_shares ≤ 0
  · rw [if_pos h]
    refine ⟨by simp [calculate_shares], ?_⟩
    intro _
    rw [calculate_avg]
    split <;> simp
  · rw [if_neg h]
    refine ⟨by simp [calculate_shares], ?_⟩
    intro h0
    rw [calculate_shares] at h0
    exact absurd h0.le h

/-- Consistency of one position record: non-negative inventory and the
stored cost equals average price times shares.  This holds for every
record produced by `update_position` starting from the empty container. -/
def PosInv (p : PyPosition) : Prop :=
  0 ≤ p.total_shares ∧ p.total_cost = p.average_price * (p.total_shares : ℚ)

theorem posInv_zero : PosInv zeroPyPosition := by
  constructor <;> simp [zeroPyPosition]

theorem update_pos_inv (p : PyPosition) (side : String) (q : Int) (pr : ℚ)
    (hp : PosInv p) (hq : 0 ≤ q) : PosInv (update_pos p side q pr) := by
  obtain ⟨hp1, hp2⟩ := hp
  unfold update_pos
  by_cases hb : pyUpper side = "BUY"
  · rw [if_pos hb]
    constructor
    · rw [calculate_shares]; dsimp only; omega
    · rw [calculate_cost, calculate_avg, calculate_shares]
      dsimp only
      by_cases hpos : 0 < p.total_shares + q
      · rw [if_pos hpos]
        have hne : ((p.total_shares + q : Int) : ℚ) ≠ 0 := by
          exact_mod_cast hpos.ne'
        exact (div_mul_cancel₀ _ hne).symm
      · rw [if_neg hpos]
        have hs0 : p.total_shares = 0 := by omega
        have hq0 : q = 0 := by omega
        rw [hs0] at hp2
        simp at hp2
        rw [hq0, hp2]
        simp
  · rw [if_neg hb]
    by_cases hs : pyUpper side = "SELL"
    · rw [if_pos hs]
      dsimp only
      have hmin : min q p.total_shares ≤ p.total_shares := min_le_right _ _
      by_cases hz : p.total_shares - min q p.total_shares ≤ 0
      · rw [if_pos hz]
        have hsh : p.total_shares - min q p.total_shares = 0 := le_antisymm hz (by omega)
        constructor
        · rw [calculate_shares]; dsimp only; omega
        · rw [calculate_cost, calculate_avg]
          dsimp only
          rw [hsh]
          simp
      · rw [if_neg hz]
        constructor
        · rw [calculate_shares]; dsimp only; omega
        · rw [calculate_cost, calculate_avg, calculate_shares]
          dsimp only
          rw [if_pos (by omega)]
          have hne : ((p.total_shares - min q p.total_shares : Int) : ℚ) ≠ 0 := by
            have : 0 < p.total_shares - min q p.total_shares := by omega
            exact_mod_cast this.ne'
          exact (div_mul_cancel₀ _ hne).symm
    · rw [if_neg hs]
      exact ⟨hp1, hp2⟩

/-- Every position of a container built from the empty one by
`update_position` calls with non-negative order quantities satisfies
`PosInv`. -/
theorem applyOrders_inv (os : List POrder) (l : String → PyPosition)
    (hl : ∀ s, PosInv (l s)) (hq : ∀ o ∈ os, 0 ≤ o.quantity) :
    ∀ s, PosInv ((os.foldl update_position l) s) := by
  induction os generalizing l with
  | nil => exact hl
  | cons o os ih =>
    simp only [List.foldl_cons]
    refine ih _ ?_ ?_
    · intro s
      unfold update_position
      by_cases h : s = o.symbol
      · rw [if_pos h]
        exact update_pos_inv _ _ _ _ (hl _) (hq o (by simp))
      · rw [if_neg h]
        exact hl s
    · intro o' ho'
      exact hq o' (by simp [ho'])

/-- A partial SELL (clipped quantity strictly below the held shares)
keeps the average price unchanged, in exact arithmetic. -/
theorem update_pos_sell_keeps_avg (p : PyPosition) (q : Int) (pr : ℚ)
    (hp : PosInv p) (hq : 0 ≤ q) (hlt : q < p.total_shares) :
    (update_pos p "SELL" q pr).average_price = p.average_price := by
  obtain ⟨hp1, hp2⟩ := hp
  unfold update_pos
  rw [pyUpper_SELL, if_neg (by decide), if_pos rfl]
  dsimp only
  have hmin : min q p.total_shares = q := min_eq_left hlt.le
  rw [hmin]
  rw [if_neg (by omega)]
  rw [calculate_avg]
  dsimp only
  rw [if_pos (by omega)]
  have hcost : p.total_cost - p.average_price * ((q : Int) : ℚ)
      = p.average_price * ((p.total_shares - q : Int) : ℚ) := by
    rw [hp2]; push_cast; ring
  rw [hcost]
  have hne : ((p.total_shares - q : Int) : ℚ) ≠ 0 := by
    have : 0 < p.total_shares - q := by omega
    exact_mod_cast this.ne'
  exact mul_div_cancel_right₀ _ hne

/-! ## BUY-sequence accumulation (for the weighted-average claim) -/

/-- Total quantity of a list of orders. -/
def sumQ (os : List POrder) : Int := (os.map POrder.quantity).sum

/-- Total cost (price times quantity summed) of a list of orders. -/
def sumPQ (os : List POrder) : ℚ :=
  (os.map (fun o => o.price * (o.quantity : ℚ))).sum

/-- Stepping a single position record by one order. -/
def stepPos (p : PyPosition) (o : POrder) : PyPosition :=
  update_pos p o.side o.quantity o.price

/-- Folding `update_position` over orders that all target one symbol agrees
with folding the single-record step over that symbol's record. -/
theorem applyOrders_single_symbol (os : List POrder) (l : String → PyPosition)
    (sym : String) (h : ∀ o ∈ os, o.symbol = sym) :
    (os.foldl update_position l) sym = os.foldl stepPos (l sym) := by
  induction os generalizing l with
  | nil => rfl
  | cons o os ih =>
    simp only [List.foldl_cons]
    rw [ih _ (fun o' ho' => h o' (by simp [ho']))]
    have hsym : o.symbol = sym := h o (by simp)
    unfold update_position stepPos
    rw [if_pos hsym.symm, hsym]

theorem buy_fold_totals (os : List POrder) (p : PyPosition)
    (h : ∀ o ∈ os, o.side = "BUY") :
    (os.foldl stepPos p).total_shares = p.total_shares + sumQ os
    ∧ (os.foldl stepPos p).total_cost = p.total_cost + sumPQ os := by
  induction os generalizing p with
  | nil => simp [sumQ, sumPQ]
  | cons o os ih =>
    simp only [List.foldl_cons]
    have hb : o.side = "BUY" := h o (by simp)
    obtain ⟨ih1, ih2⟩ := ih (stepPos p o) (fun o' ho' => h o' (by simp [ho']))
    unfold stepPos at ih1 ih2 ⊢
    rw [hb, update_pos_BUY] at ih1 ih2 ⊢
    rw [ih1, ih2, calculate_shares, calculate_cost]
    constructor
    · simp [sumQ]; ring
    · simp [sumPQ]; ring

theorem buy_fold_avg (os : List POrder) (p : PyPosition) (hne : os ≠ [])
    (h : ∀ o ∈ os, o.side = "BUY") :
    (os.foldl stepPos p).average_price =
      if 0 < (os.foldl stepPos p).total_shares then
        (os.foldl stepPos p).total_cost / ((os.foldl stepPos p).total_shares : ℚ)
      else 0 := by
  induction os generalizing p with
  | nil => exact absurd rfl hne
  | cons o os ih =>
    simp only [List.foldl_cons]
    by_cases hrest : os = []
    · subst hrest
      simp only [List.foldl_nil]
      have hb : o.side = "BUY" := h o (by simp)
      unfold stepPos
      rw [hb, update_pos_BUY, calculate_avg, calculate_shares, calculate_cost]
    · exact ih (stepPos p o) hrest (fun o' ho' => h o' (by simp [ho']))

theorem sumQ_pos (os : List POrder) (hne : os ≠ [])
    (h : ∀ o ∈ os, 0 < o.quantity) : 0 < sumQ os := by
  induction os with
  | nil => exact absurd rfl hne
  | cons o os ih =>
    have ho : 0 < o.quantity := h o (by simp)
    by_cases hrest : os = []
    · subst hrest; simpa [sumQ] using ho
    · have := ih hrest (fun o' ho' => h o' (by simp [ho']))
      simp only [sumQ, List.map_cons, List.sum_cons] at *
      omega

/-! ## Claim theorems for the Position Ledger -/

/-- C2: applying a SELL order to the Position Ledger clips the sold
quantity to `min(order.quantity, held)`, never drives the held quantity
negative, raises no error (the update is a total function), and resets
the average cost to 0 whenever the resulting quantity is 0 — for any
container reached from the empty one by a sequence of updates with
non-negative quantities. -/
theorem C2_sell_clips (os : List POrder) (hq : ∀ o ∈ os, 0 ≤ o.quantity)
    (sell : POrder) (hs : sell.side = "SELL") :
    ((update_position (os.foldl update_position emptyLedger) sell) sell.symbol).total_shares
      = ((os.foldl update_position emptyLedger) sell.symbol).total_shares
        - min sell.quantity ((os.foldl update_position emptyLedger) sell.symbol).total_shares
    ∧ 0 ≤ ((update_position (os.foldl update_position emptyLedger) sell) sell.symbol).total_shares
    ∧ (((update_position (os.foldl update_position emptyLedger) sell) sell.symbol).total_shares = 0 →
       ((update_position (os.foldl update_position emptyLedger) sell) sell.symbol).average_price = 0) := by
  have hinv : ∀ s, PosInv ((os.foldl update_position emptyLedger) s) :=
    applyOrders_inv os emptyLedger (fun _ => posInv_zero) hq
  have hheld : 0 ≤ ((os.foldl update_position emptyLedger) sell.symbol).total_shares :=
    (hinv sell.symbol).1
  rw [update_position_same]
  rw [hs]
  obtain ⟨h1, h2⟩ :=
    update_pos_sell_clip ((os.foldl update_position emptyLedger) sell.symbol)
      sell.quantity sell.price
  refine ⟨h1, ?_, h2⟩
  rw [h1]
  have := min_le_right sell.quantity
    ((os.foldl update_position emptyLedger) sell.symbol).total_shares
  omega

/-- C2 witness: buy 5 shares, then sell 7 — the sell is clipped to 5,
the held quantity ends at 0 (not negative) and the average cost resets. -/
theorem C2_sell_clips_witness :
    (∀ o ∈ [(⟨"AAPL", "BUY", 5, 10⟩ : POrder)], 0 ≤ o.quantity)
    ∧ (((update_position ([(⟨"AAPL", "BUY", 5, 10⟩ : POrder)].foldl update_position emptyLedger)
          ⟨"AAPL", "SELL", 7, 12⟩) "AAPL").total_shares
        = (([(⟨"AAPL", "BUY", 5, 10⟩ : POrder)].foldl update_position emptyLedger) "AAPL").total_shares
          - min 7 (([(⟨"AAPL", "BUY", 5, 10⟩ : POrder)].foldl update_position emptyLedger) "AAPL").total_shares
       ∧ 0 ≤ ((update_position ([(⟨"AAPL", "BUY", 5, 10⟩ : POrder)].foldl update_position emptyLedger)
          ⟨"AAPL", "SELL", 7, 12⟩) "AAPL").total_shares
       ∧ (((update_position ([(⟨"AAPL", "BUY", 5, 10⟩ : POrder)].foldl update_position emptyLedger)
          ⟨"AAPL", "SELL", 7, 12⟩) "AAPL").total_shares = 0 →
          ((update_position ([(⟨"AAPL", "BUY", 5, 10⟩ : POrder)].foldl update_position emptyLedger)
          ⟨"AAPL", "SELL", 7, 12⟩) "AAPL").average_price = 0)) :=
  ⟨by decide, C2_sell_clips [⟨"AAPL", "BUY", 5, 10⟩] (by decide) ⟨"AAPL", "SELL", 7, 12⟩ rfl⟩

/-- C3: after any finite sequence of BUY fills on one symbol (positive
quantities and prices) applied to the empty container, the average price
equals the quantity-weighted average of the fill prices. -/
theorem C3_buy_weighted_avg (sym : String) (os : List POrder)
    (h : ∀ o ∈ os, o.side = "BUY" ∧ o.symbol = sym ∧ 0 < o.quantity ∧ 0 < o.price) :
    ((os.foldl update_position emptyLedger) sym).average_price
      = sumPQ os / ((sumQ os : Int) : ℚ) := by
  rw [applyOrders_single_symbol os emptyLedger sym (fun o ho => (h o ho).2.1)]
  by_cases hne : os = []
  · subst hne
    simp [sumPQ, sumQ, emptyLedger, zeroPyPosition]
  · have hb : ∀ o ∈ os, o.side = "BUY" := fun o ho => (h o ho).1
    obtain ⟨h1, h2⟩ := buy_fold_totals os (emptyLedger sym) hb
    have havg := buy_fold_avg os (emptyLedger sym) hne hb
    have hqs : 0 < sumQ os := sumQ_pos os hne (fun o ho => (h o ho).2.2.1)
    rw [havg, h1, h2]
    have hsh : (emptyLedger sym).total_shares = 0 := rfl
    have hct : (emptyLedger sym).total_cost = 0 := rfl
    rw [hsh, hct]
    simp only [zero_add]
    rw [if_pos hqs]

/-- C3 witness: buying 1 @ 10 then 3 @ 20 gives average price
`70/4 = 35/2`, the quantity-weighted average. -/
theorem C3_buy_weighted_avg_witness :
    (∀ o ∈ [(⟨"A", "BUY", 1, 10⟩ : POrder), ⟨"A", "BUY", 3, 20⟩],
        o.side = "BUY" ∧ o.symbol = "A" ∧ 0 < o.quantity ∧ 0 < o.price)
    ∧ (([(⟨"A", "BUY", 1, 10⟩ : POrder), ⟨"A", "BUY", 3, 20⟩].foldl
          update_position emptyLedger) "A").average_price
        = sumPQ [(⟨"A", "BUY", 1, 10⟩ : POrder), ⟨"A", "BUY", 3, 20⟩]
          / ((sumQ [(⟨"A", "BUY", 1, 10⟩ : POrder), ⟨"A", "BUY", 3, 20⟩] : Int) : ℚ) :=
  ⟨by decide,
   C3_buy_weighted_avg "A" [⟨"A", "BUY", 1, 10⟩, ⟨"A", "BUY", 3, 20⟩] (by decide)⟩

/-- C10: a SELL that leaves a strictly positive remaining quantity keeps
the average price unchanged (exact arithmetic), and the update mutates
only the order's own symbol. -/
theorem C10_sell_preserves_avg (os : List POrder)
    (hq : ∀ o ∈ os, 0 ≤ o.quantity) (sell : POrder) (hs : sell.side = "SELL")
    (hq2 : 0 ≤ sell.quantity)
    (hlt : sell.quantity
        < ((os.foldl update_position emptyLedger) sell.symbol).total_shares) :
    ((update_position (os.foldl update_position emptyLedger) sell) sell.symbol).average_price
      = ((os.foldl update_position emptyLedger) sell.symbol).average_price
    ∧ ∀ t, t ≠ sell.symbol →
        (update_position (os.foldl update_position emptyLedger) sell) t
          = (os.foldl update_position emptyLedger) t := by
  have hinv := applyOrders_inv os emptyLedger (fun _ => posInv_zero) hq
  constructor
  · rw [update_position_same, hs]
    exact update_pos_sell_keeps_avg _ _ _ (hinv sell.symbol) hq2 hlt
  · intro t ht
    exact update_position_other _ _ t ht

/-- C10 witness: buy 10 @ 4 and 10 @ 6 (average 5), sell 5 — the average
price is unchanged and symbol "B" is untouched. -/
theorem C10_sell_preserves_avg_witness :
    (5 : Int) < (([(⟨"A", "BUY", 10, 4⟩ : POrder), ⟨"A", "BUY", 10, 6⟩].foldl
        update_position emptyLedger) "A").total_shares
    ∧ (((update_position ([(⟨"A", "BUY", 10, 4⟩ : POrder), ⟨"A", "BUY", 10, 6⟩].foldl
          update_position emptyLedger) ⟨"A", "SELL", 5, 9⟩) "A").average_price
        = (([(⟨"A", "BUY", 10, 4⟩ : POrder), ⟨"A", "BUY", 10, 6⟩].foldl
          update_position emptyLedger) "A").average_price
       ∧ ∀ t, t ≠ "A" →
          (update_position ([(⟨"A", "BUY", 10, 4⟩ : POrder), ⟨"A", "BUY", 10, 6⟩].foldl
            update_position emptyLedger) ⟨"A", "SELL", 5, 9⟩) t
            = ([(⟨"A", "BUY", 10, 4⟩ : POrder), ⟨"A", "BUY", 10, 6⟩].foldl
              update_position emptyLedger) t) :=
  ⟨by decide,
   C10_sell_preserves_avg [⟨"A", "BUY", 10, 4⟩, ⟨"A", "BUY", 10, 6⟩] (by decide)
     ⟨"A", "SELL", 5, 9⟩ rfl (by decide) (by decide)⟩

/-! ## execution_engine.py : BackTestengine

The engine module imports an `Order` class with a `timestamp` field and a
`validate` method, and a container exposing `positions` (schema
`quantity` + `avg_price`) and `apply_fill` — that models module is not
part of the repository sources, so those members are modelled from the
specification (sections 4.1 and 4.2); the engine control flow itself is
translated from execution_engine.py.  Timestamps are embedded as
naturals, the random source as an explicit stream of rationals indexed
by the number of samples drawn so far.  The `instantiated` and
`validated` fields of the engine state are verification counters: they
count, respectively, `Order(...)` constructor calls and orders whose
batch passed creation/validation; the Python state has no such fields
but they change nothing of the modelled behaviour. -/

/-- A market tick (`MarketDataPoint`). -/
structure Tick where
  timestamp : Nat
  symbol : String
  price : ℚ
deriving Repr, DecidableEq

/-- Modelled from the spec: a Position of the engine's ledger, schema
`{quantity, avg_price}` (section 4.1; the engine's own models module,
with `apply_fill` and `positions`, is absent from the sources). -/
structure EPos where
  quantity : Int
  avg_price : ℚ
deriving Repr, DecidableEq

/-- Modelled from the spec: an engine `Order`
(side, symbol, quantity, price, timestamp, status; status lifecycle
NEW -> FILLED | REJECTED). -/
structure EOrder where
  side : String
  symbol : String
  quantity : Int
  price : ℚ
  timestamp : Nat
  status : String
deriving Repr, DecidableEq

/-- A trading signal as produced by a strategy: a tuple of length 3
(side, symbol, qty), of length 4 (side, symbol, qty, price), or any
other shape (rejected by `_create_orders` with "Bad signal shape"). -/
inductive Signal where
  | s3 (side symbol : String) (qty : Int)
  | s4 (side symbol : String) (qty : Int) (price : ℚ)
  | malformed (descr : String)
deriving Repr, DecidableEq

/-- Modelled from the spec: `Order.validate` (section 4.2) — side must be
BUY or SELL, quantity > 0, price > 0, symbol non-empty; raises an
OrderError message otherwise. -/
def validateOrder (o : EOrder) : Except String Unit :=
  if ¬(o.side = "BUY" ∨ o.side = "SELL") then
    Except.error "side must be BUY or SELL"
  else if o.quantity ≤ 0 then Except.error "quantity must be > 0"
  else if o.price ≤ 0 then Except.error "price must be > 0"
  else if o.symbol = "" then Except.error "symbol must be non-empty"
  else Except.ok ()

/-- Modelled from the spec: the engine ledger's `apply_fill`
(section 4.1): BUY re-weights the average cost, SELL clips to the held
quantity and zeroes the average cost at zero inventory. -/
def applyFill (m : String → EPos) (o : EOrder) : String → EPos :=
  fun s =>
    if s = o.symbol then
      let p := m o.symbol
      if o.side = "BUY" then
        let newQty := p.quantity + o.quantity
        { quantity := newQty,
          avg_price :=
            if 0 < newQty then
              (p.avg_price * (p.quantity : ℚ) + o.price * (o.quantity : ℚ))
                / (newQty : ℚ)
            else p.avg_price }
      else if o.side = "SELL" then
        let sellQty := min o.quantity p.quantity
        let q2 := p.quantity - sellQty
        { quantity := q2, avg_price := if q2 = 0 then 0 else p.avg_price }
      else p
    else m s

/-- A registered strategy: its class name plus its `generate_signals`
capability, which may raise (error) or return a list of signals. -/
structure MStrategy where
  name : String
  gen : Tick → (String → EPos) → Except String (List Signal)

/-- The engine state: the container's buffer and positions, the order
log, the error log, plus the verification counters and the index of the
next random sample. -/
structure EngineState where
  buffer : List Tick
  positions : String → EPos
  order_log : List EOrder
  error_log : List String
  instantiated : Nat
  validated : Nat
  rngIdx : Nat

/-- The initial engine state (`BackTestengine.__init__`). -/
def initState : EngineState :=
  { buffer := [], positions := fun _ => ⟨0, 0⟩, order_log := [],
    error_log := [], instantiated := 0, validated := 0, rngIdx := 0 }

/-- `BackTestengine._create_orders`: instantiate and validate one order
per signal, left to right; a malformed signal or a validation failure
raises, discarding the whole batch.  The `Nat` argument/result threads
the count of `Order(...)` constructions performed. -/
def createOrders (tick : Tick) : List Signal → Nat → Nat × Except String (List EOrder)
  | [], n => (n, Except.ok [])
  | Signal.malformed d :: _, n => (n, Except.error ("Bad signal shape: " ++ d))
  | Signal.s3 side symbol qty :: rest, n =>
    let o : EOrder := ⟨pyUpper side, symbol, qty, tick.price, tick.timestamp, "NEW"⟩
    (match validateOrder o with
     | Except.error e => (n + 1, Except.error e)
     | Except.ok _ =>
       match createOrders tick rest (n + 1) with
       | (n2, Except.error e) => (n2, Except.error e)
       | (n2, Except.ok os) => (n2, Except.ok (o :: os)))
  | Signal.s4 side symbol qty price :: rest, n =>
    let o : EOrder := ⟨pyUpper side, symbol, qty, price, tick.timestamp, "NEW"⟩
    (match validateOrder o with
     | Except.error e => (n + 1, Except.error e)
     | Except.ok _ =>
       match createOrders tick rest (n + 1) with
       | (n2, Except.error e) => (n2, Except.error e)
       | (n2, Except.ok os) => (n2, Except.ok (o :: os)))

/-- `BackTestengine._execute`: draw one uniform sample; below 0.03 raise
an ExecutionError, otherwise mark the order FILLED and apply the fill to
the ledger at the order's stated price. -/
def execOrder (r : ℚ) (m : String → EPos) (o : EOrder) :
    Except String ((String → EPos) × EOrder) :=
  if r < 3 / 100 then Except.error "Simulated venue outage"
  else
    let o2 := { o with status := "FILLED" }
    Except.ok (applyFill m o2, o2)

/-- The per-order error-log entry of `on_tick`. -/
def execErrEntry (ts : Nat) (o : EOrder) (e : String) : String :=
  toString ts ++ " " ++ o.symbol ++ " " ++ o.side ++ " x"
    ++ toString o.quantity ++ ": EXECUTION ERROR: " ++ e

/-- The per-strategy error-log entry of `on_tick`. -/
def strategyErrEntry (ts : Nat) (name e : String) : String :=
  toString ts ++ " Strategy " ++ name ++ " error: " ++ e

/-- The try/except/finally around `_execute` in `on_tick`: on failure the
order is marked REJECTED and an error entry appended; in both cases the
order is appended to the order log. -/
def processOrder (rand : Nat → ℚ) (tick : Tick) (st : EngineState)
    (o : EOrder) : EngineState :=
  match execOrder (rand st.rngIdx) st.positions o with
  | Except.error e =>
    { st with rngIdx := st.rngIdx + 1,
              order_log := st.order_log ++ [{ o with status := "REJECTED" }],
              error_log := st.error_log ++ [execErrEntry tick.timestamp o e] }
  | Except.ok (m2, o2) =>
    { st with rngIdx := st.rngIdx + 1,
              positions := m2,
              order_log := st.order_log ++ [o2] }

/-- One strategy's turn inside `on_tick`: generate signals (errors are
caught and logged), create + validate the batch (errors are caught by
the same per-strategy handler), then execute each created order. -/
def processStrategy (rand : Nat → ℚ) (tick : Tick) (st : EngineState)
    (strat : MStrategy) : EngineState :=
  match strat.gen tick st.positions with
  | Except.error e =>
    { st with error_log :=
        st.error_log ++ [strategyErrEntry tick.timestamp strat.name e] }
  | Except.ok signals =>
    match createOrders tick signals st.instantiated with
    | (n, Except.error e) =>
      { st with instantiated := n,
                error_log :=
          st.error_log ++ [strategyErrEntry tick.timestamp strat.name e] }
    | (n, Except.ok orders) =>
      orders.foldl (processOrder rand tick)
        { st with instantiated := n, validated := st.validated + orders.length }

/-- `BackTestengine.on_tick`: buffer the tick, then run every registered
strategy in order.  The function is total: no exception propagates. -/
def onTick (strats : List MStrategy) (rand : Nat → ℚ) (st : EngineState)
    (tick : Tick) : EngineState :=
  strats.foldl (processStrategy rand tick) { st with buffer := st.buffer ++ [tick] }

/-- Processing a list of ticks in the given order. -/
def runTicks (strats : List MStrategy) (rand : Nat → ℚ) (st : EngineState)
    (ticks : List Tick) : EngineState :=
  ticks.foldl (onTick strats rand) st

/-- Stable insertion of a tick into a timestamp-sorted list. -/
def insertTick (t : Tick) : List Tick → List Tick
  | [] => [t]
  | u :: us => if t.timestamp < u.timestamp then t :: u :: us
               else u :: insertTick t us

/-- Stable sort by timestamp, as `run` does with `sorted(market, key=...)`. -/
def sortTicks : List Tick → List Tick
  | [] => []
  | t :: ts => insertTick t (sortTicks ts)

/-- `BackTestengine.run`: sort the market by timestamp, then `on_tick`
each observation. -/
def runEngine (strats : List MStrategy) (rand : Nat → ℚ)
    (ticks : List Tick) : EngineState :=
  runTicks strats rand initState (sortTicks ticks)

/-! ## Engine lemmas -/

theorem processOrder_eq (rand : Nat → ℚ) (tick : Tick) (st : EngineState)
    (o : EOrder) :
    processOrder rand tick st o =
      if rand st.rngIdx < 3 / 100 then
        { st with rngIdx := st.rngIdx + 1,
                  order_log := st.order_log ++ [{ o with status := "REJECTED" }],
                  error_log := st.error_log
                    ++ [execErrEntry tick.timestamp o "Simulated venue outage"] }
      else
        { st with rngIdx := st.rngIdx + 1,
                  positions := applyFill st.positions { o with status := "FILLED" },
                  order_log := st.order_log ++ [{ o with status := "FILLED" }] } := by
  unfold processOrder execOrder
  by_cases hr : rand st.rngIdx < 3 / 100 <;> simp [hr]

theorem processOrder_log_len (rand : Nat → ℚ) (tick : Tick) (st : EngineState)
    (o : EOrder) :
    (processOrder rand tick st o).order_log.length = st.order_log.length + 1 := by
  rw [processOrder_eq]; split <;> simp

theorem processOrder_validated (rand : Nat → ℚ) (tick : Tick) (st : EngineState)
    (o : EOrder) :
    (processOrder rand tick st o).validated = st.validated := by
  rw [processOrder_eq]; split <;> rfl

theorem processOrder_terminal (rand : Nat → ℚ) (tick : Tick) (st : EngineState)
    (o : EOrder)
    (h : ∀ o' ∈ st.order_log, o'.status = "FILLED" ∨ o'.status = "REJECTED") :
    ∀ o' ∈ (processOrder rand tick st o).order_log,
      o'.status = "FILLED" ∨ o'.status = "REJECTED" := by
  rw [processOrder_eq]
  split <;> intro o' ho' <;> dsimp at ho' <;>
    rcases List.mem_append.mp ho' with hmem | hmem
  · exact h o' hmem
  · rw [List.mem_singleton.mp hmem]; right; rfl
  · exact h o' hmem
  · rw [List.mem_singleton.mp hmem]; left; rfl

theorem foldOrders_log_len (rand : Nat → ℚ) (tick : Tick)
    (orders : List EOrder) (st : EngineState) :
    ((orders.foldl (processOrder rand tick) st).order_log.length
        = st.order_log.length + orders.length)
    ∧ (orders.foldl (processOrder rand tick) st).validated = st.validated := by
  induction orders generalizing st with
  | nil => simp
  | cons o os ih =>
    simp only [List.foldl_cons, List.length_cons]
    obtain ⟨ih1, ih2⟩ := ih (processOrder rand tick st o)
    rw [ih1, ih2, processOrder_log_len, processOrder_validated]
    omega

theorem foldOrders_terminal (rand : Nat → ℚ) (tick : Tick)
    (orders : List EOrder) (st : EngineState)
    (h : ∀ o' ∈ st.order_log, o'.status = "FILLED" ∨ o'.status = "REJECTED") :
    ∀ o' ∈ (orders.foldl (processOrder rand tick) st).order_log,
      o'.status = "FILLED" ∨ o'.status = "REJECTED" := by
  induction orders generalizing st with
  | nil => exact h
  | cons o os ih =>
    simp only [List.foldl_cons]
    exact ih (processOrder rand tick st o) (processOrder_terminal rand tick st o h)

/-- The combined order-log invariant: the log length equals the number of
orders whose batch was created and validated successfully, and every
logged order carries a terminal status. -/
def LogMatches (st : EngineState) : Prop :=
  st.order_log.length = st.validated
  ∧ ∀ o ∈ st.order_log, o.status = "FILLED" ∨ o.status = "REJECTED"

theorem processStrategy_logMatches (rand : Nat → ℚ) (tick : Tick)
    (st : EngineState) (strat : MStrategy) (h : LogMatches st) :
    LogMatches (processStrategy rand tick st strat) := by
  unfold processStrategy
  split
  · exact ⟨h.1, h.2⟩
  · split
    · exact ⟨h.1, h.2⟩
    · rename_i signals hg n orders hc
      constructor
      · obtain ⟨l1, l2⟩ := foldOrders_log_len rand tick orders
          { st with instantiated := n, validated := st.validated + orders.length }
        rw [l1, l2]
        dsimp only
        rw [h.1]
      · exact foldOrders_terminal rand tick orders _ h.2

theorem onTick_logMatches (strats : List MStrategy) (rand : Nat → ℚ)
    (st : EngineState) (tick : Tick) (h : LogMatches st) :
    LogMatches (onTick strats rand st tick) := by
  unfold onTick
  have hbuf : LogMatches { st with buffer := st.buffer ++ [tick] } := ⟨h.1, h.2⟩
  revert hbuf
  generalize { st with buffer := st.buffer ++ [tick] } = st0
  intro hbuf
  induction strats generalizing st0 with
  | nil => exact hbuf
  | cons s ss ih =>
    simp only [List.foldl_cons]
    exact ih _ (processStrategy_logMatches rand tick st0 s hbuf)

theorem runTicks_logMatches (strats : List MStrategy) (rand : Nat → ℚ)
    (st : EngineState) (ticks : List Tick) (h : LogMatches st) :
    LogMatches (runTicks strats rand st ticks) := by
  unfold runTicks
  induction ticks generalizing st with
  | nil => exact h
  | cons t ts ih =>
    simp only [List.foldl_cons]
    exact ih _ (onTick_logMatches strats rand st t h)

/-! ## Claim theorems for the Backtest Driver and Execution Simulator -/

/-- C1 (amended): in every run, every order whose creation/validation
batch succeeded is appended to the Order Log exactly once — the final
log length equals the number of successfully created-and-validated
orders — and each logged order ends in a terminal status, FILLED or
REJECTED. -/
theorem C1_log_matches_validated (strats : List MStrategy) (rand : Nat → ℚ)
    (ticks : List Tick) :
    (runEngine strats rand ticks).order_log.length
        = (runEngine strats rand ticks).validated
    ∧ ∀ o ∈ (runEngine strats rand ticks).order_log,
        o.status = "FILLED" ∨ o.status = "REJECTED" :=
  runTicks_logMatches strats rand initState (sortTicks ticks)
    ⟨rfl, by intro o ho; exact absurd ho (List.not_mem_nil o)⟩

/-- Strategy used by the C1 counterexample: its second signal has a bad
shape, so `_create_orders` raises after the first order was already
instantiated, and the whole batch is discarded unlogged. -/
def c1Strat : MStrategy :=
  ⟨"BadBatch", fun _ _ =>
    Except.ok [Signal.s4 "BUY" "A" 1 100, Signal.malformed "(1,)"]⟩

/-- Random stream used by the C1 demonstrations: never below 0.03. -/
def c1Rand : Nat → ℚ := fun _ => 1

/-- Tick used by the C1 demonstrations. -/
def c1Tick : Tick := ⟨1, "A", 100⟩

/-- C1 counterexample: one order is instantiated during the run but the
Order Log stays empty, because the batch aborts on the malformed second
signal — refuting "log length equals the number of orders instantiated"
and "every order instantiated is appended". -/
theorem C1_counterexample :
    (runEngine [c1Strat] c1Rand [c1Tick]).instantiated = 1
    ∧ (runEngine [c1Strat] c1Rand [c1Tick]).order_log.length = 0
    ∧ (runEngine [c1Strat] c1Rand [c1Tick]).error_log.length = 1 := by
  refine ⟨?_, ?_, ?_⟩ <;> rfl

/-- Strategy used by the C1 witness: one well-formed BUY signal. -/
def c1wStrat : MStrategy :=
  ⟨"Demo", fun _ _ => Except.ok [Signal.s4 "BUY" "A" 2 50]⟩

/-- The order that the C1 witness run fills and logs. -/
def c1wOrder : EOrder := ⟨"BUY", "A", 2, 50, 1, "FILLED"⟩

theorem c1w_order_log :
    (runEngine [c1wStrat] c1Rand [c1Tick]).order_log = [c1wOrder] := by
  have hlt : ¬((1 : ℚ) < 3 / 100) := by norm_num
  have h50 : ¬((50 : ℚ) ≤ 0) := by norm_num
  simp [runEngine, runTicks, sortTicks, insertTick, onTick, processStrategy,
    createOrders, validateOrder, processOrder_eq, c1wStrat, c1Rand, c1Tick,
    initState, c1wOrder, hlt, h50]

/-- C1 witness: a concrete run whose log length equals its validated
count, with a concrete logged order of terminal status. -/
theorem C1_log_matches_validated_witness :
    ((runEngine [c1wStrat] c1Rand [c1Tick]).order_log.length
        = (runEngine [c1wStrat] c1Rand [c1Tick]).validated)
    ∧ (c1wOrder ∈ (runEngine [c1wStrat] c1Rand [c1Tick]).order_log
        ∧ (c1wOrder.status = "FILLED" ∨ c1wOrder.status = "REJECTED")) :=
  ⟨(C1_log_matches_validated [c1wStrat] c1Rand [c1Tick]).1,
   by rw [c1w_order_log]; exact List.mem_singleton.mpr rfl,
   (C1_log_matches_validated [c1wStrat] c1Rand [c1Tick]).2 c1wOrder
     (by rw [c1w_order_log]; exact List.mem_singleton.mpr rfl)⟩

/-- C6: the Execution Simulator draws the sample at the current stream
index; it rejects exactly when the sample is below 0.03, in which case
the Position Ledger is left unchanged and the order is logged REJECTED
with an execution-error entry; otherwise the order is logged FILLED, at
its stated price unchanged, and the fill is applied to the Ledger. -/
theorem C6_execute_policy (rand : Nat → ℚ) (tick : Tick) (st : EngineState)
    (o : EOrder) :
    ((processOrder rand tick st o).positions
        = if rand st.rngIdx < 3 / 100 then st.positions
          else applyFill st.positions { o with status := "FILLED" })
    ∧ ((processOrder rand tick st o).order_log
        = st.order_log
          ++ [if rand st.rngIdx < 3 / 100 then { o with status := "REJECTED" }
              else { o with status := "FILLED" }])
    ∧ ((processOrder rand tick st o).error_log
        = if rand st.rngIdx < 3 / 100 then
            st.error_log ++ [execErrEntry tick.timestamp o "Simulated venue outage"]
          else st.error_log)
    ∧ (∀ r m o2, execOrder r m o2 = Except.error "Simulated venue outage"
          ↔ r < 3 / 100)
    ∧ ({ o with status := "FILLED" } : EOrder).price = o.price
    ∧ ({ o with status := "FILLED" } : EOrder).quantity = o.quantity
    ∧ (processOrder rand tick st o).rngIdx = st.rngIdx + 1 := by
  refine ⟨?_, ?_, ?_, ?_, rfl, rfl, by rw [processOrder_eq]; split <;> rfl⟩
  · rw [processOrder_eq]; split <;> rfl
  · rw [processOrder_eq]
    by_cases hr : rand st.rngIdx < 3 / 100 <;> simp [hr]
  · rw [processOrder_eq]
    by_cases hr : rand st.rngIdx < 3 / 100 <;> simp [hr]
  · intro r m o2
    unfold execOrder
    by_cases hr : r < 3 / 100 <;> simp [hr]

theorem processStrategy_gen_error (rand : Nat → ℚ) (tick : Tick)
    (st : EngineState) (strat : MStrategy) (e : String)
    (hg : strat.gen tick st.positions = Except.error e) :
    processStrategy rand tick st strat =
      { st with error_log :=
          st.error_log ++ [strategyErrEntry tick.timestamp strat.name e] } := by
  unfold processStrategy
  rw [hg]

/-- C5: a strategy whose signal generation raises is caught inside
`on_tick`; exactly one Error Log entry — containing the strategy
identity and the observation timestamp — is appended for it, nothing
else of the state changes for that strategy, the remaining strategies
are processed exactly as usual, and subsequent observations continue to
be processed (`on_tick` is a total function: no exception propagates). -/
theorem C5_strategy_error_isolated (rand : Nat → ℚ) (tick : Tick)
    (st : EngineState) (pre post : List MStrategy) (f : MStrategy) (e : String)
    (hf : ∀ m, f.gen tick m = Except.error e) :
    (onTick (pre ++ f :: post) rand st tick
      = post.foldl (processStrategy rand tick)
          { (pre.foldl (processStrategy rand tick)
              { st with buffer := st.buffer ++ [tick] }) with
            error_log :=
              (pre.foldl (processStrategy rand tick)
                { st with buffer := st.buffer ++ [tick] }).error_log
              ++ [strategyErrEntry tick.timestamp f.name e] })
    ∧ (∃ a b, strategyErrEntry tick.timestamp f.name e = a ++ f.name ++ b)
    ∧ (∃ a b, strategyErrEntry tick.timestamp f.name e
        = a ++ toString tick.timestamp ++ b)
    ∧ (∀ ts, runTicks (pre ++ f :: post) rand st (tick :: ts)
        = runTicks (pre ++ f :: post) rand
            (onTick (pre ++ f :: post) rand st tick) ts) := by
  refine ⟨?_, ?_, ?_, ?_⟩
  · unfold onTick
    rw [List.foldl_append]
    simp only [List.foldl_cons]
    rw [processStrategy_gen_error rand tick _ f e (hf _)]
  · exact ⟨toString tick.timestamp ++ " Strategy ", " error: " ++ e, by
      unfold strategyErrEntry
      rw [String.append_assoc]⟩
  · exact ⟨"", " Strategy " ++ f.name ++ " error: " ++ e, by
      unfold strategyErrEntry
      simp [String.append_assoc]⟩
  · intro ts
    rfl

/-- Strategy used by the C5 witness: always raises. -/
def c5Fail : MStrategy := ⟨"AlwaysRaises", fun _ _ => Except.error "boom"⟩

/-- Tick used by the C5 witness. -/
def c5Tick : Tick := ⟨7, "X", 10⟩

/-- C5 witness: the isolation theorem applied to a concrete always-raising
strategy on a concrete tick. -/
theorem C5_strategy_error_isolated_witness :
    (onTick ([] ++ c5Fail :: []) (fun _ => (1 : ℚ)) initState c5Tick
      = [].foldl (processStrategy (fun _ => (1 : ℚ)) c5Tick)
          { ([].foldl (processStrategy (fun _ => (1 : ℚ)) c5Tick)
              { initState with buffer := initState.buffer ++ [c5Tick] }) with
            error_log :=
              ([].foldl (processStrategy (fun _ => (1 : ℚ)) c5Tick)
                { initState with buffer := initState.buffer ++ [c5Tick] }).error_log
              ++ [strategyErrEntry c5Tick.timestamp c5Fail.name "boom"] })
    ∧ (∃ a b, strategyErrEntry c5Tick.timestamp c5Fail.name "boom"
        = a ++ c5Fail.name ++ b)
    ∧ (∃ a b, strategyErrEntry c5Tick.timestamp c5Fail.name "boom"
        = a ++ toString c5Tick.timestamp ++ b)
    ∧ (∀ ts, runTicks ([] ++ c5Fail :: []) (fun _ => (1 : ℚ)) initState (c5Tick :: ts)
        = runTicks ([] ++ c5Fail :: []) (fun _ => (1 : ℚ))
            (onTick ([] ++ c5Fail :: []) (fun _ => (1 : ℚ)) initState c5Tick) ts) :=
  C5_strategy_error_isolated (fun _ => 1) c5Tick initState [] [] c5Fail "boom"
    (fun _ => rfl)

/-! ## reporting.py : PerformanceReporter

The Portfolio Reconstructor (`_calculate_portfolio_series`) and the
trade-level P&L scan (`_calculate_trade_statistics`) replay order
records (dicts with time/symbol/side/qty/price/status).  The local
`positions` dict is modelled as an insertion-ordered association list,
matching Python dict iteration order for the portfolio-value sum. -/

/-- An order record of the backtest report (`report()["orders"]`). -/
structure ORec where
  time : Nat
  symbol : String
  side : String
  qty : Int
  price : ℚ
  status : String
deriving Repr, DecidableEq

/-- A local reconstructor position: `{"quantity": .., "avg_price": ..}`. -/
structure RPos where
  quantity : Int
  avg_price : ℚ
deriving Repr, DecidableEq

/-- Lookup in the insertion-ordered position map. -/
def findRPos : List (String × RPos) → String → Option RPos
  | [], _ => none
  | (t, p) :: rest, s => if t = s then some p else findRPos rest s

/-- In-place update of the insertion-ordered position map (appends at the
end when the symbol is new, as a Python dict does). -/
def setRPos : List (String × RPos) → String → RPos → List (String × RPos)
  | [], s, p => [(s, p)]
  | (t, q) :: rest, s, p =>
    if t = s then (t, p) :: rest else (t, q) :: setRPos rest s p

/-- One FILLED order applied to the reconstructor's cash and position
map (`_calculate_portfolio_series` loop body). -/
def stepFill (cm : ℚ × List (String × RPos)) (o : ORec) :
    ℚ × List (String × RPos) :=
  let cash := cm.1
  let m := cm.2
  let p := (findRPos m o.symbol).getD ⟨0, 0⟩
  if o.side = "BUY" then
    let newQty := p.quantity + o.qty
    let p2 : RPos :=
      ⟨newQty,
       if 0 < newQty then
         (p.avg_price * (p.quantity : ℚ) + o.price * (o.qty : ℚ)) / (newQty : ℚ)
       else p.avg_price⟩
    (cash - (o.qty : ℚ) * o.price, setRPos m o.symbol p2)
  else if o.side = "SELL" then
    let sellQty := min o.qty p.quantity
    let q2 := p.quantity - sellQty
    let p2 : RPos := ⟨q2, if q2 = 0 then 0 else p.avg_price⟩
    (cash + (sellQty : ℚ) * o.price, setRPos m o.symbol p2)
  else (cash, setRPos m o.symbol p)

/-- `portfolio_value = cash + Σ(position.quantity * position.avg_price)`. -/
def portfolioValue (cash : ℚ) (m : List (String × RPos)) : ℚ :=
  cash + (m.map (fun sp => (sp.2.quantity : ℚ) * sp.2.avg_price)).sum

/-- The value entries appended for a list of already-FILLED orders. -/
def valuesAlong (cm : ℚ × List (String × RPos)) : List ORec → List ℚ
  | [] => []
  | o :: os =>
    let cm2 := stepFill cm o
    portfolioValue cm2.1 cm2.2 :: valuesAlong cm2 os

/-- The loop of `_calculate_portfolio_series`: skip non-FILLED orders,
apply each fill and append the portfolio value. -/
def seriesAux (cm : ℚ × List (String × RPos)) : List ORec → List ℚ
  | [] => []
  | o :: os =>
    if o.status = "FILLED" then
      let cm2 := stepFill cm o
      portfolioValue cm2.1 cm2.2 :: seriesAux cm2 os
    else seriesAux cm os

/-- Stable insertion of an order record into a time-sorted list. -/
def insertORec (o : ORec) : List ORec → List ORec
  | [] => [o]
  | u :: us => if o.time < u.time then o :: u :: us else u :: insertORec o us

/-- Stable sort by time, as `sorted(orders, key=lambda x: x["time"])`. -/
def sortORecs : List ORec → List ORec
  | [] => []
  | o :: os => insertORec o (sortORecs os)

/-- `_calculate_portfolio_series` (the value series; the derived returns
series is not needed by the claims): empty input gives an empty series,
otherwise the initial capital followed by one value per FILLED order in
time order. -/
def calcPortfolioSeries (initial : ℚ) (orders : List ORec) : List ℚ :=
  if orders = [] then []
  else initial :: seriesAux (initial, []) (sortORecs orders)

theorem seriesAux_eq_valuesAlong (cm : ℚ × List (String × RPos))
    (l : List ORec) :
    seriesAux cm l
      = valuesAlong cm (l.filter (fun o => decide (o.status = "FILLED"))) := by
  induction l generalizing cm with
  | nil => rfl
  | cons o os ih =>
    by_cases h : o.status = "FILLED"
    · simp [seriesAux, valuesAlong, h, ih]
    · simp [seriesAux, h, ih]

theorem valuesAlong_length (cm : ℚ × List (String × RPos)) (l : List ORec) :
    (valuesAlong cm l).length = l.length := by
  induction l generalizing cm with
  | nil => rfl
  | cons o os ih => simp [valuesAlong, ih]

theorem countP_insertORec (p : ORec → Bool) (o : ORec) (l : List ORec) :
    (insertORec o l).countP p = (o :: l).countP p := by
  induction l with
  | nil => rfl
  | cons u us ih =>
    unfold insertORec
    by_cases h : o.time < u.time
    · rw [if_pos h]
    · rw [if_neg h]
      simp only [List.countP_cons, ih]
      omega

theorem countP_sortORecs (p : ORec → Bool) (l : List ORec) :
    (sortORecs l).countP p = l.countP p := by
  induction l with
  | nil => rfl
  | cons o os ih =>
    unfold sortORecs
    rw [countP_insertORec, List.countP_cons, List.countP_cons, ih]

theorem valuesAlong_getElem (l : List ORec) (cm : ℚ × List (String × RPos))
    (k : Nat) (hk : k < l.length) :
    (valuesAlong cm l)[k]?
      = some (portfolioValue ((l.take (k+1)).foldl stepFill cm).1
          ((l.take (k+1)).foldl stepFill cm).2) := by
  induction l generalizing cm k with
  | nil => simp at hk
  | cons o os ih =>
    cases k with
    | zero => simp [valuesAlong]
    | succ k =>
      have hk2 : k < os.length := by simpa using hk
      simp only [valuesAlong, List.getElem?_cons_succ, List.take_succ_cons,
        List.foldl_cons]
      exact ih (stepFill cm o) k hk2

/-- C7: for a non-empty order log the Portfolio Reconstructor's value
series starts with the initial cash, has exactly one further entry per
FILLED order (rejected orders contribute none), and its (k+1)-st entry
is the portfolio value `cash + Σ quantity*avg_price` of the state
obtained by applying the first k+1 fills in time order with the BUY /
clipped-SELL cash-and-average-cost rule of `stepFill`. -/
theorem C7_portfolio_series (initial : ℚ) (orders : List ORec)
    (hne : orders ≠ []) :
    (calcPortfolioSeries initial orders).length
        = ((sortORecs orders).filter (fun o => decide (o.status = "FILLED"))).length + 1
    ∧ (calcPortfolioSeries initial orders).head? = some initial
    ∧ ((sortORecs orders).filter (fun o => decide (o.status = "FILLED"))).length
        = (orders.filter (fun o => decide (o.status = "FILLED"))).length
    ∧ ∀ k,
        k < ((sortORecs orders).filter (fun o => decide (o.status = "FILLED"))).length →
        (calcPortfolioSeries initial orders)[k+1]?
          = some (portfolioValue
              ((((sortORecs orders).filter
                  (fun o => decide (o.status = "FILLED"))).take (k+1)).foldl
                stepFill (initial, [])).1
              ((((sortORecs orders).filter
                  (fun o => decide (o.status = "FILLED"))).take (k+1)).foldl
                stepFill (initial, [])).2) := by
  unfold calcPortfolioSeries
  rw [if_neg hne]
  refine ⟨?_, rfl, ?_, ?_⟩
  · rw [List.length_cons, seriesAux_eq_valuesAlong, valuesAlong_length]
  · rw [← List.countP_eq_length_filter, ← List.countP_eq_length_filter]
    exact countP_sortORecs _ orders
  · intro k hk
    rw [seriesAux_eq_valuesAlong]
    rw [List.getElem?_cons_succ]
    exact valuesAlong_getElem _ (initial, []) k hk

/-- Order log used by the C7 witness. -/
def c7Orders : List ORec :=
  [⟨1, "X", "BUY", 2, 10, "FILLED"⟩,
   ⟨2, "X", "SELL", 1, 20, "REJECTED"⟩,
   ⟨3, "X", "SELL", 1, 20, "FILLED"⟩]

/-- C7 witness: the series theorem applied to a three-order log with one
rejected order. -/
theorem C7_portfolio_series_witness :
    c7Orders ≠ []
    ∧ ((calcPortfolioSeries 100 c7Orders).length
        = ((sortORecs c7Orders).filter (fun o => decide (o.status = "FILLED"))).length + 1
      ∧ (calcPortfolioSeries 100 c7Orders).head? = some 100
      ∧ ((sortORecs c7Orders).filter (fun o => decide (o.status = "FILLED"))).length
          = (c7Orders.filter (fun o => decide (o.status = "FILLED"))).length
      ∧ ∀ k,
          k < ((sortORecs c7Orders).filter (fun o => decide (o.status = "FILLED"))).length →
          (calcPortfolioSeries 100 c7Orders)[k+1]?
            = some (portfolioValue
                ((((sortORecs c7Orders).filter
                    (fun o => decide (o.status = "FILLED"))).take (k+1)).foldl
                  stepFill (100, [])).1
                ((((sortORecs c7Orders).filter
                    (fun o => decide (o.status = "FILLED"))).take (k+1)).foldl
                  stepFill (100, [])).2)) :=
  ⟨by decide, C7_portfolio_series 100 c7Orders (by decide)⟩

/-! ## reporting.py : trade-level P&L (`_calculate_trade_statistics`) -/

/-- The running per-symbol state of the round-trip P&L scan: signed
position, weighted average entry price, and the realized P&L values
appended so far. -/
structure TradeState where
  position : Int
  avg_price : ℚ
  pnls : List ℚ
deriving Repr, DecidableEq

/-- One FILLED order applied to the per-symbol round-trip scan of
`_calculate_trade_statistics`: a BUY at position `>= 0` adds to the long
(re-weighting the average), a BUY at position `< 0` covers (appending a
P&L); a SELL at position `<= 0` adds to the short, a SELL at position
`> 0` closes (appending a P&L). -/
def tradeStep (st : TradeState) (o : ORec) : TradeState :=
  if o.side = "BUY" then
    if 0 ≤ st.position then
      let newPos := st.position + o.qty
      { st with position := newPos,
                avg_price :=
                  if 0 < newPos then
                    (st.avg_price * (st.position : ℚ) + o.price * (o.qty : ℚ))
                      / (newPos : ℚ)
                  else st.avg_price }
    else
      let coverQty := min o.qty |st.position|
      let pnl := (coverQty : ℚ) * (st.avg_price - o.price)
      let newPos := st.position + coverQty
      { position := newPos,
        avg_price := if newPos = 0 then 0 else st.avg_price,
        pnls := st.pnls ++ [pnl] }
  else if o.side = "SELL" then
    if st.position ≤ 0 then
      let newPos := st.position - o.qty
      { st with position := newPos,
                avg_price :=
                  if newPos < 0 then
                    (st.avg_price * ((|st.position| : Int) : ℚ)
                        + o.price * (o.qty : ℚ)) / ((|newPos| : Int) : ℚ)
                  else st.avg_price }
    else
      let closeQty := min o.qty st.position
      let pnl := (closeQty : ℚ) * (o.price - st.avg_price)
      let newPos := st.position - closeQty
      { position := newPos,
        avg_price := if newPos = 0 then 0 else st.avg_price,
        pnls := st.pnls ++ [pnl] }
  else st

/-- The per-symbol scan over a symbol's FILLED orders, starting from a
flat position. -/
def tradePnls (orders : List ORec) : List ℚ :=
  (orders.foldl tradeStep ⟨0, 0, []⟩).pnls

/-- The FILLED SELL order used by the C8 counterexample. -/
def c8Sell : ORec := ⟨1, "X", "SELL", 1, 100, "FILLED"⟩

/-- C8 counterexample: a SELL arriving while the running position is
exactly 0 (hence `>= 0`) appends NO realized P&L value — the code opens
a short position of -1 instead — refuting the claim that such a SELL is
a closing event appending exactly one P&L value. -/
theorem C8_counterexample :
    tradePnls [c8Sell] = []
    ∧ ([c8Sell].foldl tradeStep ⟨0, 0, []⟩).position = -1 := by
  constructor <;> rfl

/-- C8 (amended): a SELL arriving while the running position is strictly
positive appends exactly one realized P&L value
`min(qty, position) * (fill_price - avg_entry)`; a BUY arriving while
the running position is strictly negative appends exactly one value
`min(qty, |position|) * (avg_entry - fill_price)`; in every other case —
including a SELL or BUY at position exactly 0, which opens a new
position — no P&L value is appended. -/
theorem C8_pnl_events (st : TradeState) (o : ORec) :
    (tradeStep st o).pnls =
      if o.side = "SELL" ∧ 0 < st.position then
        st.pnls ++ [((min o.qty st.position : Int) : ℚ) * (o.price - st.avg_price)]
      else if o.side = "BUY" ∧ st.position < 0 then
        st.pnls ++ [((min o.qty |st.position| : Int) : ℚ) * (st.avg_price - o.price)]
      else st.pnls := by
  unfold tradeStep
  by_cases hb : o.side = "BUY"
  · have hns : ¬(o.side = "SELL" ∧ 0 < st.position) := by
      rintro ⟨h1, _⟩
      exact BUY_ne_SELL (hb ▸ h1)
    rw [if_pos hb, if_neg hns]
    by_cases hp : 0 ≤ st.position
    · rw [if_pos hp, if_neg (fun h => absurd h.2 (not_lt.mpr hp))]
    · rw [if_neg hp, if_pos ⟨hb, lt_of_not_ge hp⟩]
  · rw [if_neg hb]
    by_cases hs : o.side = "SELL"
    · have hnb : ¬(o.side = "BUY" ∧ st.position < 0) := fun h => hb h.1
      rw [if_pos hs, if_neg hnb]
      by_cases hp : st.position ≤ 0
      · rw [if_pos hp, if_neg (fun h => absurd h.2 (not_lt.mpr hp))]
      · rw [if_neg hp, if_pos ⟨hs, lt_of_not_ge hp⟩]
    · rw [if_neg hs, if_neg (fun (h : o.side = "SELL" ∧ _) => hs h.1),
          if_neg (fun (h : o.side = "BUY" ∧ _) => hb h.1)]

/-! ## executionn_engine.py : Makeorder, with models.py Order construction

`Makeorder` validates a signal tuple and then constructs a models.py
`Order`.  Two behaviours of the Python source matter here and are
embedded faithfully:
* in `Makeorder`, the SELL branch reads a global name `positions` that
  is defined nowhere in the module, so every SELL that passes the three
  explicit checks raises a NameError;
* in models.py, the `price` property setter executes `self.price = value`
  after its `value < 0` check, re-entering itself unboundedly, so every
  `Order(...)` construction that reaches the price assignment (quantity
  valid, price non-negative) raises a RecursionError; only `value < 0`
  (not `value <= 0`) is rejected with an OrderError.
Error values are embedded as an explicit error type. -/

/-- Python exceptions raised by `Makeorder` / `Order.__init__`. -/
inductive PyErr where
  | orderError (msg : String)
  | nameError (msg : String)
  | recursionError
deriving Repr, DecidableEq

/-- A constructed models.py Order (never actually produced, see
`Order_init`). -/
structure MOrder where
  symbol : String
  quantity : Int
  price : ℚ
  side : String
  status : String
deriving Repr, DecidableEq

/-- `models.Order.__init__`: the quantity setter raises an OrderError for
`quantity <= 0`; the price setter raises an OrderError only for
`price < 0` (price 0 passes the check) and otherwise re-enters itself
(`self.price = value`), raising a RecursionError — so no construction
ever completes. -/
def Order_init (symbol : String) (quantity : Int) (price : ℚ)
    (side status : String) : Except PyErr MOrder :=
  if quantity ≤ 0 then Except.error (PyErr.orderError "quantity must be > 0")
  else if price < 0 then
    Except.error (PyErr.orderError "Price cannot be negative")
  else Except.error PyErr.recursionError

/-- `Makeorder`: validates action/quantity/price in order, then for SELL
reads the undefined global `positions` (NameError), and otherwise
constructs a models.py Order. -/
def Makeorder (signal : String × String × Int × ℚ) : Except PyErr MOrder :=
  let action := signal.1
  let symbol := signal.2.1
  let qty := signal.2.2.1
  let price := signal.2.2.2
  if ¬(action = "BUY" ∨ action = "SELL") then
    Except.error (PyErr.orderError "action must be BUY or SELL")
  else if qty ≤ 0 then Except.error (PyErr.orderError "quantity must be > 0")
  else if price ≤ 0 then Except.error (PyErr.orderError "price must be > 0")
  else if action = "SELL" then
    Except.error (PyErr.nameError "positions is not defined")
  else Order_init symbol qty price action "NEW"

/-- The result failed with an OrderError. -/
def isOrderErr : Except PyErr MOrder → Prop
  | Except.error (PyErr.orderError _) => True
  | _ => False

instance (r : Except PyErr MOrder) : Decidable (isOrderErr r) := by
  unfold isOrderErr
  cases r with
  | error e => cases e <;> simp <;> infer_instance
  | ok _ => simp; infer_instance

/-! ## Claim theorems for the Order Validator/Factory -/

/-- C4: a SELL intent with positive quantity, positive price, valid
side and non-empty symbol does NOT succeed regardless of holdings — it
raises a NameError, because `Makeorder` reads the undefined global
`positions` on the SELL path. -/
theorem C4_sell_raises_nameerror :
    Makeorder ("SELL", "AAPL", 5, 100)
      = Except.error (PyErr.nameError "positions is not defined") := by
  norm_num [Makeorder]

/-- C9 counterexample: the intent ("BUY", "", 1, 100) violates the
symbol-non-empty validation rule, yet `Makeorder` raises no OrderError —
construction fails with a RecursionError instead — refuting "fails with
an OrderError if and only if one of the validation rules is violated". -/
theorem C9_counterexample :
    Makeorder ("BUY", "", 1, 100) = Except.error PyErr.recursionError
    ∧ ¬ isOrderErr (Makeorder ("BUY", "", 1, 100)) := by
  have hM : Makeorder ("BUY", "", 1, 100) = Except.error PyErr.recursionError := by
    norm_num [Makeorder, Order_init]
    intro h
    exact absurd h (by decide)
  refine ⟨hM, ?_⟩
  rw [hM]
  exact fun h => h

/-- C9 (amended): `Makeorder` fails with an OrderError iff the action is
neither BUY nor SELL, or the quantity is `<= 0`, or the price is `<= 0`
— in particular a price of exactly 0 and a non-positive quantity are
rejected with an OrderError; the symbol-non-empty rule is not checked
anywhere (and the models.py price setter rejects only strictly negative
prices). -/
theorem C9_ordererror_iff (action symbol : String) (qty : Int) (price : ℚ) :
    isOrderErr (Makeorder (action, symbol, qty, price))
      ↔ (¬(action = "BUY" ∨ action = "SELL") ∨ qty ≤ 0 ∨ price ≤ 0) := by
  unfold Makeorder
  dsimp only
  by_cases ha : action = "BUY" ∨ action = "SELL"
  · rw [if_neg (not_not_intro ha)]
    by_cases hq : qty ≤ 0
    · rw [if_pos hq]
      simp [isOrderErr, hq]
    · rw [if_neg hq]
      by_cases hp : price ≤ 0
      · rw [if_pos hp]
        simp [isOrderErr, hp]
      · rw [if_neg hp]
        have hrhs : ¬(¬(action = "BUY" ∨ action = "SELL") ∨ qty ≤ 0 ∨ price ≤ 0) := by
          push_neg
          exact ⟨ha, lt_of_not_ge hq, lt_of_not_ge hp⟩
        by_cases hsell : action = "SELL"
        · rw [if_pos hsell]
          simp [isOrderErr, hrhs, ha, hq, hp]
        · rw [if_neg hsell]
          unfold Order_init
          rw [if_neg hq, if_neg (fun h => hp h.le)]
          simp [isOrderErr, hrhs, ha, hq, hp]
  · rw [if_pos ha]
    simp [isOrderErr, ha]
